import Mathlib

/-!
# Business Ideas Tracker — shallow embedding

The repository holds two near-duplicate implementations of the same
Express/Knex/PostgreSQL application:

* variant A = `src/index.js`
* variant B = `src/unnamed/part_000`

We embed the database state as lists of rows and each route handler's
database effect as a pure function on that state.  Modelling conventions,
stated once here:

* User ids, idea ids and collaboration ids are naturals (the `serial`
  columns).  Route/path parameters that the code compares against integer
  columns (the pg driver casts the strings) are modelled as naturals.
* Timestamps are naturals (milliseconds); a missing `createdat` is `none`.
* `numeric`/`integer` columns are modelled as `Option Int` (`none` = SQL
  NULL).  Fractional parts of `parseFloat` results play no role in any
  claim, so number parsing reads the leading integer (`none` models a
  failed parse, i.e. JavaScript `NaN`).
* SQL three-valued logic: a `WHERE col <= x` comparison with a NULL column
  is not-true, so the row is filtered out; PostgreSQL orders `numeric NaN`
  above every number, so `col <= NaN` holds and `col >= NaN` fails for
  non-NULL `col`.
* `LIKE`/`ILIKE` with a `%...%` pattern is modelled as case-insensitive
  substring containment (wildcard characters inside the user input are not
  given their SQL meaning; no claim depends on them).
* JavaScript truthiness of a request field: an absent field (`undefined`)
  and the empty string are falsy, every other string — including `"0"` —
  is truthy.
* `ORDER BY` / `Array.prototype.sort` are modelled with Mathlib's stable
  `List.insertionSort`; claims only use membership and sortedness, which
  any correct stable sort shares with the source's sorts.
-/

/-- JavaScript truthiness of an optional string request field. -/
def truthy : Option String → Bool
  | none => false
  | some s => !(s == "")

/-- Numeric value of an ASCII digit. -/
def digitVal (c : Char) : Option Nat :=
  if 48 ≤ c.toNat && c.toNat ≤ 57 then some (c.toNat - 48) else none

/-- Longest leading run of digits, `none` when there is none (JavaScript's
number parsing takes the numeric prefix and yields `NaN` without one). -/
def parseDigitsAux : List Char → Nat → Bool → Option Nat
  | [], acc, seen => if seen then some acc else none
  | c :: rest, acc, seen =>
    match digitVal c with
    | some d => parseDigitsAux rest (acc * 10 + d) true
    | none => if seen then some acc else none

/-- Model of `parseFloat`/`parseInt` on a request string; `none` models
`NaN`.  Fractional values do not matter for any claim, hence `Int`. -/
def jsParseNum (s : String) : Option Int :=
  match s.data with
  | '-' :: rest => (parseDigitsAux rest 0 false).map (fun n => -(n : Int))
  | l => (parseDigitsAux l 0 false).map (fun n => (n : Int))

/-- SQL `col <= bound` where `col` is a possibly NULL numeric column and
`bound` a parsed request number (`none` = `NaN`, which PostgreSQL orders
above every numeric value). -/
def sqlLeNum (col bound : Option Int) : Bool :=
  match col, bound with
  | some c, some b => c ≤ b
  | some _, none => true
  | none, _ => false

/-- SQL `col >= bound` under the same conventions as `sqlLeNum`. -/
def sqlGeNum (col bound : Option Int) : Bool :=
  match col, bound with
  | some c, some b => b ≤ c
  | some _, none => false
  | none, _ => false

/-- `pat` is a prefix of `l` (on characters). -/
def charPrefix : List Char → List Char → Bool
  | [], _ => true
  | _ :: _, [] => false
  | a :: as, b :: bs => a == b && charPrefix as bs

/-- `pat` occurs as a contiguous sublist of `l`. -/
def charSub (pat l : List Char) : Bool :=
  match l with
  | [] => charPrefix pat []
  | _ :: rest => charPrefix pat l || charSub pat rest

/-- ASCII lower-casing of one character (the claims only exercise ASCII
data, so the full Unicode folding of SQL `LOWER` is not modelled). -/
def asciiLower (c : Char) : Char :=
  if 65 ≤ c.toNat && c.toNat ≤ 90 then Char.ofNat (c.toNat + 32) else c

/-- Case-insensitive substring containment, the model of
`LOWER(col) LIKE LOWER('%pat%')` / `col ilike '%pat%'`. -/
def containsCI (hay pat : String) : Bool :=
  charSub (pat.data.map asciiLower) (hay.data.map asciiLower)

/-- A row of the `collaborations` table. -/
structure Collab where
  collaborationid : Nat
  ideaid : Nat
  userid : Nat
deriving DecidableEq, Repr

/-- A row of `idea_details` as variant A stores it: `marketingstrategy` is a
PostgreSQL text array (`Option (List String)`, `none` = NULL). -/
structure IdeaA where
  ideaid : Nat
  userid : Nat
  ideaname : String
  ideadescription : String
  marketingstrategy : Option (List String)
  targetcustomer : Option String
  estimatedcost : Option Int
  timeline : Option String
  potential : Option Int
  createdat : Option Nat
deriving DecidableEq, Repr

/-- Variant A database state (the `security` table only feeds display
columns through LEFT JOINs and never filters rows, so it is omitted). -/
structure DBA where
  ideas : List IdeaA
  collabs : List Collab
deriving DecidableEq, Repr

/-- A row of `idea_details` as variant B stores it: `marketingstrategy` is
a plain text column.  The `GET /ideas` query of variant B does not select
`createdat`, but the column exists in the table and claims refer to it. -/
structure IdeaB where
  ideaid : Nat
  userid : Nat
  ideaname : String
  ideadescription : String
  marketingstrategy : Option String
  targetcustomer : Option String
  estimatedcost : Option Int
  timeline : Option String
  potential : Option Int
  createdat : Option Nat
deriving DecidableEq, Repr

/-- Variant B database state. -/
structure DBB where
  ideas : List IdeaB
  collabs : List Collab
deriving DecidableEq, Repr

/-- Query-string filters of variant A's `GET /view-ideas`
(`marketingstrategy`, `maxcost`, `ideaname`, `potential`); `none` = the
parameter is absent from the query string. -/
structure QueryA where
  marketingstrategy : Option String
  maxcost : Option String
  ideaname : Option String
  potential : Option String
deriving DecidableEq, Repr

/-- Query-string filters of variant B's `GET /ideas`.  The code defaults
each to `''` (`req.query.x || ''`) before the truthiness guard, which is
observationally the same as keeping the `Option`. -/
structure QueryB where
  searchName : Option String
  searchMarketing : Option String
  searchCustomer : Option String
  minCost : Option String
  maxCost : Option String
  minPotential : Option String
deriving DecidableEq, Repr

/-- One optional WHERE clause: the source pattern `if (param) { query =
query.where(... param ...) }`.  A non-truthy parameter adds no
constraint. -/
def optFilter {α : Type} (g : String → α → Bool) (p : Option String)
    (i : α) : Bool :=
  if truthy p then g (p.getD "") i else true

/-- Variant A marketing filter body: `? = ANY(marketingstrategy)` (false
on a NULL array). -/
def msMatchA (v : String) (i : IdeaA) : Bool :=
  match i.marketingstrategy with
  | some tags => tags.contains v
  | none => false

/-- Variant A cost filter body: `estimatedcost <= parseFloat(maxcost)`. -/
def costLeA (v : String) (i : IdeaA) : Bool :=
  sqlLeNum i.estimatedcost (jsParseNum v)

/-- Variant A name filter body: `LOWER(ideaname) LIKE LOWER('%v%')`. -/
def nameMatchA (v : String) (i : IdeaA) : Bool :=
  containsCI i.ideaname v

/-- Variant A potential filter body: `potential >= parseInt(potential)`. -/
def potGeA (v : String) (i : IdeaA) : Bool :=
  sqlGeNum i.potential (jsParseNum v)

/-- The conjunction of variant A's optional WHERE clauses (`src/index.js`
lines 246–264), each added only when its query parameter is truthy. -/
def passesA (q : QueryA) (i : IdeaA) : Bool :=
  optFilter msMatchA q.marketingstrategy i
    && optFilter costLeA q.maxcost i
    && optFilter nameMatchA q.ideaname i
    && optFilter potGeA q.potential i

/-- Variant B name filter body: `ideaname ilike '%v%'`. -/
def nameMatchB (v : String) (i : IdeaB) : Bool :=
  containsCI i.ideaname v

/-- Variant B marketing filter body: `marketingstrategy ilike '%v%'`
(false on a NULL column). -/
def msMatchB (v : String) (i : IdeaB) : Bool :=
  match i.marketingstrategy with
  | some t => containsCI t v
  | none => false

/-- Variant B target-customer filter body: `targetcustomer ilike '%v%'`
(false on a NULL column). -/
def custMatchB (v : String) (i : IdeaB) : Bool :=
  match i.targetcustomer with
  | some t => containsCI t v
  | none => false

/-- Variant B minimum-cost filter body: `estimatedcost >=
parseFloat(minCost)`. -/
def costGeB (v : String) (i : IdeaB) : Bool :=
  sqlGeNum i.estimatedcost (jsParseNum v)

/-- Variant B maximum-cost filter body: `estimatedcost <=
parseFloat(maxCost)`. -/
def costLeB (v : String) (i : IdeaB) : Bool :=
  sqlLeNum i.estimatedcost (jsParseNum v)

/-- Variant B potential filter body: `potential >=
parseInt(minPotential)`. -/
def potGeB (v : String) (i : IdeaB) : Bool :=
  sqlGeNum i.potential (jsParseNum v)

/-- The conjunction of variant B's optional `andWhere` clauses
(`src/unnamed/part_000` lines 244–262), each added only when its query
parameter is truthy. -/
def passesB (q : QueryB) (i : IdeaB) : Bool :=
  optFilter nameMatchB q.searchName i
    && optFilter msMatchB q.searchMarketing i
    && optFilter custMatchB q.searchCustomer i
    && optFilter costGeB q.minCost i
    && optFilter costLeB q.maxCost i
    && optFilter potGeB q.minPotential i

/-- Variant A `myIdeasQuery`: ideas whose `userid` is the session user,
with the filters applied (the LEFT JOIN on `security` never filters). -/
def myIdeasA (db : DBA) (me : Nat) (q : QueryA) : List IdeaA :=
  (db.ideas.filter (fun i => i.userid == me)).filter (passesA q)

/-- Variant A `sharedIdeasQuery`: the inner `JOIN collaborations c ON
i.ideaid = c.ideaid` produces one row per matching collaboration row, then
`WHERE c.userid = me`, `WHERE NOT i.userid = me` and the filters apply. -/
def sharedIdeasA (db : DBA) (me : Nat) (q : QueryA) : List IdeaA :=
  (db.ideas.flatMap (fun i =>
      (db.collabs.filter
          (fun c => c.ideaid == i.ideaid && c.userid == me)).map
        (fun _ => i))).filter
    (fun i => !(i.userid == me) && passesA q i)

/-- Time key used by variant A's comparator `new Date(b.createdat) -
new Date(a.createdat)`.  Rows with a NULL `createdat` yield `NaN`
comparisons, whose order JavaScript leaves unspecified; the model places
them at epoch 0. -/
def dateKey (o : Option Nat) : Nat :=
  o.getD 0

/-- Variant A's sort order: newest first by `createdat`. -/
def ordA (a b : IdeaA) : Prop :=
  dateKey b.createdat ≤ dateKey a.createdat

instance : DecidableRel ordA := fun a b =>
  inferInstanceAs (Decidable (dateKey b.createdat ≤ dateKey a.createdat))

instance : IsTotal IdeaA ordA :=
  ⟨fun a b => Nat.le_total (dateKey b.createdat) (dateKey a.createdat)⟩

instance : IsTrans IdeaA ordA :=
  ⟨fun _ _ _ h h' => Nat.le_trans h' h⟩

/-- Variant A `GET /view-ideas`: owned ideas and shared ideas concatenated,
then sorted newest-first by `createdat` (stable, as `Array.prototype.sort`
is). -/
def viewIdeasA (db : DBA) (me : Nat) (q : QueryA) : List IdeaA :=
  List.insertionSort ordA (myIdeasA db me q ++ sharedIdeasA db me q)

/-- Variant B's visibility predicate.  The route builds `idea_details LEFT
JOIN collaborations ON ideaid` with `WHERE (id.userid = me OR c.userid =
me)` and `GROUP BY id.ideaid, s.userid`; since every selected column is
determined by the idea row, the grouped result contains one row per idea
satisfying this predicate. -/
def visibleB (db : DBB) (me : Nat) (i : IdeaB) : Bool :=
  i.userid == me
    || db.collabs.any (fun c => c.ideaid == i.ideaid && c.userid == me)

/-- Variant B's sort order: `ORDER BY id.ideaid DESC`. -/
def ordB (a b : IdeaB) : Prop :=
  b.ideaid ≤ a.ideaid

instance : DecidableRel ordB := fun a b =>
  inferInstanceAs (Decidable (b.ideaid ≤ a.ideaid))

instance : IsTotal IdeaB ordB :=
  ⟨fun a b => Nat.le_total b.ideaid a.ideaid⟩

instance : IsTrans IdeaB ordB :=
  ⟨fun _ _ _ h h' => Nat.le_trans h' h⟩

/-- Variant B `GET /ideas`: visible ideas, filters applied, ordered by
descending idea id.  (The per-idea collaborator decoration queried
afterwards does not change which ideas are returned.) -/
def viewIdeasB (db : DBB) (me : Nat) (q : QueryB) : List IdeaB :=
  List.insertionSort ordB
    ((db.ideas.filter (visibleB db me)).filter (passesB q))

/-- Access-control predicate of spec §4.2 over variant A state:
`canView(idea, userId) = idea.ownerId == userId OR
collaborationExists(idea.id, userId)`. -/
def canViewA (db : DBA) (me : Nat) (i : IdeaA) : Bool :=
  i.userid == me
    || db.collabs.any (fun c => c.ideaid == i.ideaid && c.userid == me)

/-- The same access-control predicate over variant B state. -/
def canViewB (db : DBB) (me : Nat) (i : IdeaB) : Bool :=
  i.userid == me
    || db.collabs.any (fun c => c.ideaid == i.ideaid && c.userid == me)

/-- The `marketingstrategy` body field of variant A's idea forms: absent,
a single string (one checkbox), or an array (several checkboxes). -/
inductive MsInput where
  | absent
  | one (s : String)
  | many (l : List String)
deriving DecidableEq, Repr

/-- JavaScript truthiness of the `marketingstrategy` body field: arrays
are always truthy, strings iff non-empty, `undefined` falsy. -/
def msTruthy : MsInput → Bool
  | .absent => false
  | .one s => !(s == "")
  | .many _ => true

/-- Variant A's `marketingArray` conversion: `null` unless truthy, else
`Array.isArray(ms) ? ms : [ms]`. -/
def marketingArrayA (m : MsInput) : Option (List String) :=
  if msTruthy m then
    match m with
    | .one s => some [s]
    | .many l => some l
    | .absent => none
  else none

/-- Model of the JavaScript `x || null` normalization of an optional
string field. -/
def jsOrNull (o : Option String) : Option String :=
  if truthy o then o else none

/-- What lands in a numeric column when the route hands it a raw string or
`null` (variant A inserts `estimatedcost || null` and lets PostgreSQL cast
the string).  A non-numeric string would abort the statement at the cast;
no claim exercises that case, so a failed parse is collapsed to NULL. -/
def castNumCol (o : Option String) : Option Int :=
  (jsOrNull o).bind jsParseNum

/-- Variant A idea form body (`POST /add-idea`, `POST /edit-idea/:id`). -/
structure FormA where
  ideaname : Option String
  ideadescription : Option String
  marketingstrategy : MsInput
  targetcustomer : Option String
  estimatedcost : Option String
  timeline : Option String
  potential : Option String
deriving DecidableEq, Repr

/-- Variant B idea form body; its `marketingstrategy` is a single text
field. -/
structure FormB where
  ideaname : Option String
  ideadescription : Option String
  marketingstrategy : Option String
  targetcustomer : Option String
  estimatedcost : Option String
  timeline : Option String
  potential : Option String
deriving DecidableEq, Repr

/-- What variant B's `estimatedcost ? parseFloat(estimatedcost) : null`
produces: NULL for falsy input, otherwise the parsed number or `NaN`. -/
inductive StoredNum where
  | null
  | nan
  | val (n : Int)
deriving DecidableEq, Repr

/-- Variant B's numeric-field normalization at `POST /addIdea`. -/
def parsedNumB (o : Option String) : StoredNum :=
  if truthy o then
    match jsParseNum (o.getD "") with
    | some n => .val n
    | none => .nan
  else .null

/-- The row variant A's `POST /add-idea` passes to
`knex('idea_details').insert`.  Numeric columns receive the raw
`x || null` strings (PostgreSQL casts them); an `undefined` `ideaname` or
`ideadescription` is kept as `none` (knex omits undefined columns). -/
structure NewIdeaA where
  ideaname : Option String
  ideadescription : Option String
  marketingstrategy : Option (List String)
  targetcustomer : Option String
  estimatedcost : Option String
  timeline : Option String
  potential : Option String
  userid : Nat
deriving DecidableEq, Repr

/-- The row variant B's `POST /addIdea` passes to insert. -/
structure NewIdeaB where
  userid : Nat
  ideaname : String
  ideadescription : String
  marketingstrategy : Option String
  targetcustomer : Option String
  estimatedcost : StoredNum
  timeline : Option String
  potential : StoredNum
deriving DecidableEq, Repr

/-- Variant A `POST /add-idea` (`src/index.js` 173–212): `none` would mean
the route rejected the form before inserting, but variant A performs no
validation, so a payload is always produced. -/
def addIdeaA (me : Nat) (f : FormA) : Option NewIdeaA :=
  some
    { ideaname := f.ideaname
      ideadescription := f.ideadescription
      marketingstrategy := marketingArrayA f.marketingstrategy
      targetcustomer := jsOrNull f.targetcustomer
      estimatedcost := jsOrNull f.estimatedcost
      timeline := jsOrNull f.timeline
      potential := jsOrNull f.potential
      userid := me }

/-- Variant B `POST /addIdea` (`src/unnamed/part_000` 309–344): re-renders
the form (`none`, no insert) when `!ideaname || !ideadescription`,
otherwise inserts the normalized row with the session user as owner. -/
def addIdeaB (me : Nat) (f : FormB) : Option NewIdeaB :=
  if !truthy f.ideaname || !truthy f.ideadescription then none
  else
    some
      { userid := me
        ideaname := f.ideaname.getD ""
        ideadescription := f.ideadescription.getD ""
        marketingstrategy := jsOrNull f.marketingstrategy
        targetcustomer := jsOrNull f.targetcustomer
        estimatedcost := parsedNumB f.estimatedcost
        timeline := jsOrNull f.timeline
        potential := parsedNumB f.potential }

/-- Variant A `POST /delete-idea/:id` (`src/index.js` 440–458): only the
owner triggers the delete, and the delete statement touches only
`idea_details` — no collaboration rows are deleted by this route. -/
def deleteIdeaA (db : DBA) (me ideaId : Nat) : DBA :=
  match db.ideas.find? (fun i => i.ideaid == ideaId) with
  | some idea =>
    if idea.userid == me then
      { db with ideas := db.ideas.filter (fun i => !(i.ideaid == ideaId)) }
    else db
  | none => db

/-- Variant B `POST /deleteIdea/:id` (`src/unnamed/part_000` 464–500):
owner check, then delete the idea's collaboration rows, then the idea. -/
def deleteIdeaB (db : DBB) (me ideaId : Nat) : DBB :=
  match db.ideas.find? (fun i => i.ideaid == ideaId) with
  | some idea =>
    if idea.userid == me then
      { ideas := db.ideas.filter (fun i => !(i.ideaid == ideaId))
        collabs := db.collabs.filter (fun c => !(c.ideaid == ideaId)) }
    else db
  | none => db

/-- Fresh `collaborationid` for an inserted row (the table's serial
column). -/
def nextCollabId (l : List Collab) : Nat :=
  l.foldr (fun c m => max (c.collaborationid + 1) m) 0

/-- The collaboration-insert effect shared by both variants: skip when a
row with the `(ideaid, userid)` pair already exists, else append a fresh
row.  Variant A reaches this via `onConflict(['ideaid','userid'])
.ignore()` (the unique constraint makes the insert a no-op), variant B
via an explicit existence check before the insert. -/
def collabInsertStep (collabs : List Collab) (ideaId target : Nat) :
    List Collab :=
  if collabs.any (fun c => c.ideaid == ideaId && c.userid == target) then
    collabs
  else collabs ++ [⟨nextCollabId collabs, ideaId, target⟩]

/-- Variant A `POST /add-collaborator/:id` (`src/index.js` 389–413): only
the idea's owner triggers the conflict-ignoring insert. -/
def addCollaboratorA (db : DBA) (me ideaId target : Nat) : DBA :=
  match db.ideas.find? (fun i => i.ideaid == ideaId) with
  | some idea =>
    if idea.userid == me then
      { db with collabs := collabInsertStep db.collabs ideaId target }
    else db
  | none => db

/-- Variant B `POST /addCollaborator/:id` (`src/unnamed/part_000`
505–545): owner check, then the checked insert. -/
def addCollaboratorB (db : DBB) (me ideaId target : Nat) : DBB :=
  match db.ideas.find? (fun i => i.ideaid == ideaId) with
  | some idea =>
    if idea.userid == me then
      { db with collabs := collabInsertStep db.collabs ideaId target }
    else db
  | none => db

/-- Variant A `POST /remove-collaborator/:ideaid/:userid` (`src/index.js`
416–437): only the idea's owner deletes the `(ideaid, userid)` row. -/
def removeCollaboratorA (db : DBA) (me ideaId target : Nat) : DBA :=
  match db.ideas.find? (fun i => i.ideaid == ideaId) with
  | some idea =>
    if idea.userid == me then
      { db with
          collabs :=
            db.collabs.filter
              (fun c => !(c.ideaid == ideaId && c.userid == target)) }
    else db
  | none => db

/-- Variant B `POST /removeCollaborator/:collaborationId`
(`src/unnamed/part_000` 548–588): look up the collaboration row, then the
idea; only the idea's owner deletes the row. -/
def removeCollaboratorB (db : DBB) (me collabId : Nat) : DBB :=
  match db.collabs.find? (fun c => c.collaborationid == collabId) with
  | some c =>
    match db.ideas.find? (fun i => i.ideaid == c.ideaid) with
    | some idea =>
      if idea.userid == me then
        { db with
            collabs :=
              db.collabs.filter
                (fun c' => !(c'.collaborationid == collabId)) }
      else db
    | none => db
  | none => db

/-- Variant B `POST /leaveCollaboration/:id` (`src/unnamed/part_000`
591–606): unconditionally deletes the session user's collaboration row
for the idea — no ownership is consulted. -/
def leaveCollaborationB (db : DBB) (me ideaId : Nat) : DBB :=
  { db with
      collabs :=
        db.collabs.filter
          (fun c => !(c.ideaid == ideaId && c.userid == me)) }

/-- The field updates variant A's `POST /edit-idea/:id` applies to the
matched row.  `ideaname`/`ideadescription` appear bare in the update
object, so an `undefined` body field leaves the column unchanged (knex
omits undefined values); the remaining editable columns are always
written.  `updatedat := knex.fn.now()` (server clock) is not modelled.
The owning `userid` does not appear in the update object. -/
def updatedRowA (f : FormA) (i : IdeaA) : IdeaA :=
  { i with
      ideaname := f.ideaname.getD i.ideaname
      ideadescription := f.ideadescription.getD i.ideadescription
      marketingstrategy := marketingArrayA f.marketingstrategy
      targetcustomer := jsOrNull f.targetcustomer
      estimatedcost := castNumCol f.estimatedcost
      timeline := jsOrNull f.timeline
      potential := castNumCol f.potential }

/-- Variant A `POST /edit-idea/:id` (`src/index.js` 330–386): the idea
must exist and the session user be owner or collaborator; no field
validation is performed. -/
def editIdeaA (db : DBA) (me ideaId : Nat) (f : FormA) : DBA :=
  match db.ideas.find? (fun i => i.ideaid == ideaId) with
  | some idea =>
    if idea.userid == me
        || db.collabs.any (fun c => c.ideaid == ideaId && c.userid == me)
    then
      { db with
          ideas :=
            db.ideas.map
              (fun i => if i.ideaid == ideaId then updatedRowA f i else i) }
    else db
  | none => db

/-- Variant B's numeric-field normalization at `POST /editIdea/:id`
(`x ? parseFloat(x) : null` written into the numeric column; a `NaN`
parse, not exercised by any claim, is collapsed to NULL as in
`castNumCol`). -/
def parseNumColB (o : Option String) : Option Int :=
  if truthy o then jsParseNum (o.getD "") else none

/-- The field updates variant B's `POST /editIdea/:id` applies; the
validation guarantees `ideaname`/`ideadescription` are present.  The
owning `userid` does not appear in the update object. -/
def updatedRowB (f : FormB) (i : IdeaB) : IdeaB :=
  { i with
      ideaname := f.ideaname.getD ""
      ideadescription := f.ideadescription.getD ""
      marketingstrategy := jsOrNull f.marketingstrategy
      targetcustomer := jsOrNull f.targetcustomer
      estimatedcost := parseNumColB f.estimatedcost
      timeline := jsOrNull f.timeline
      potential := parseNumColB f.potential }

/-- Variant B `POST /editIdea/:id` (`src/unnamed/part_000` 403–461):
redirect (no update) when `!ideaname || !ideadescription`; otherwise the
idea must exist and the session user be owner or collaborator. -/
def editIdeaB (db : DBB) (me ideaId : Nat) (f : FormB) : DBB :=
  if !truthy f.ideaname || !truthy f.ideadescription then db
  else
    match db.ideas.find? (fun i => i.ideaid == ideaId) with
    | some idea =>
      if idea.userid == me
          || db.collabs.any (fun c => c.ideaid == ideaId && c.userid == me)
      then
        { db with
            ideas :=
              db.ideas.map
                (fun i =>
                  if i.ideaid == ideaId then updatedRowB f i else i) }
      else db
    | none => db

/-- Ownership predicate of spec §4.2: `isOwner(idea, userId) =
idea.ownerId == userId` (variant A rows). -/
def isOwnerA (i : IdeaA) (u : Nat) : Prop :=
  i.userid = u

/-- Ownership predicate over variant B rows. -/
def isOwnerB (i : IdeaB) (u : Nat) : Prop :=
  i.userid = u

/-- Well-formedness of a variant A database: idea ids are unique (primary
key) and collaboration rows are unique on `(ideaid, userid)` (the
composite unique constraint that `onConflict` targets). -/
def DBA.wf (db : DBA) : Prop :=
  (db.ideas.map (fun i => i.ideaid)).Nodup
    ∧ (db.collabs.map (fun c => (c.ideaid, c.userid))).Nodup

/-- Well-formedness of a variant B database. -/
def DBB.wf (db : DBB) : Prop :=
  (db.ideas.map (fun i => i.ideaid)).Nodup
    ∧ (db.collabs.map (fun c => (c.ideaid, c.userid))).Nodup

instance (db : DBA) : Decidable db.wf := by
  unfold DBA.wf; infer_instance

instance (db : DBB) : Decidable db.wf := by
  unfold DBB.wf; infer_instance

/-! ## Helper lemmas -/

/-- A list whose keys are distinct has at most one element in any filter
that pins the key to a single value. -/
theorem length_filter_le_one_of_key {α β : Type} (key : α → β) :
    ∀ (l : List α), (l.map key).Nodup → ∀ (p : α → Bool) (k : β),
      (∀ a, p a = true → key a = k) → (l.filter p).length ≤ 1 := by
  intro l
  induction l with
  | nil => intro _ p k _; simp
  | cons a l ih =>
    intro hnd p k hp
    rw [List.map_cons, List.nodup_cons] at hnd
    cases hpa : p a with
    | false =>
      rw [List.filter_cons, if_neg (by simp [hpa])]
      exact ih hnd.2 p k hp
    | true =>
      have hka := hp a hpa
      have hnil : l.filter p = [] := by
        rw [List.filter_eq_nil_iff]
        intro b hb hpb
        apply hnd.1
        have hm : key b ∈ List.map key l := List.mem_map_of_mem key hb
        rwa [hp b hpb, ← hka] at hm
      rw [List.filter_cons, if_pos (by simp [hpa]), hnil]
      simp

/-- In a list with distinct keys, `find?` on a key equality returns the
unique element carrying that key. -/
theorem find?_key_eq {α β : Type} [BEq β] [LawfulBEq β] (key : α → β) :
    ∀ (l : List α), (l.map key).Nodup → ∀ a ∈ l,
      l.find? (fun x => key x == key a) = some a := by
  intro l
  induction l with
  | nil => intro _ a ha; cases ha
  | cons b l ih =>
    intro hnd a ha
    rw [List.map_cons, List.nodup_cons] at hnd
    rcases List.mem_cons.mp ha with rfl | hal
    · simp [List.find?_cons]
    · have hne : (key b == key a) = false := by
        rw [beq_eq_false_iff_ne]
        intro h
        exact hnd.1 (h ▸ List.mem_map_of_mem key hal)
      rw [List.find?_cons, hne]
      exact ih hnd.2 a hal

/-- With distinct keys, two members sharing a key are the same row. -/
theorem key_injective {α β : Type} (key : α → β) :
    ∀ (l : List α), (l.map key).Nodup →
      ∀ a ∈ l, ∀ b ∈ l, key a = key b → a = b := by
  intro l
  induction l with
  | nil => intro _ a ha; cases ha
  | cons c l ih =>
    intro hnd a ha b hb hk
    rw [List.map_cons, List.nodup_cons] at hnd
    rcases List.mem_cons.mp ha with rfl | hal
    · rcases List.mem_cons.mp hb with rfl | hbl
      · rfl
      · exact absurd (hk ▸ List.mem_map_of_mem key hbl) hnd.1
    · rcases List.mem_cons.mp hb with rfl | hbl
      · exact absurd (hk ▸ List.mem_map_of_mem key hal) hnd.1
      · exact ih hnd.2 a hal b hbl hk

/-- Membership in variant A's `myIdeasQuery` result. -/
theorem mem_myIdeasA {db : DBA} {me : Nat} {q : QueryA} {x : IdeaA} :
    x ∈ myIdeasA db me q ↔
      x ∈ db.ideas ∧ x.userid = me ∧ passesA q x = true := by
  simp [myIdeasA, List.mem_filter]
  tauto

/-- Membership in variant A's `sharedIdeasQuery` result. -/
theorem mem_sharedIdeasA {db : DBA} {me : Nat} {q : QueryA} {x : IdeaA} :
    x ∈ sharedIdeasA db me q ↔
      x ∈ db.ideas
        ∧ (∃ c ∈ db.collabs, c.ideaid = x.ideaid ∧ c.userid = me)
        ∧ ¬x.userid = me ∧ passesA q x = true := by
  simp only [sharedIdeasA, List.mem_filter, List.mem_flatMap, List.mem_map,
    Bool.and_eq_true, Bool.not_eq_true', beq_iff_eq, beq_eq_false_iff_ne,
    ne_eq]
  constructor
  · rintro ⟨⟨i, hi, c, ⟨⟨hc, hcid, hcu⟩, rfl⟩⟩, hno, hp⟩
    exact ⟨hi, ⟨c, hc, hcid, hcu⟩, hno, hp⟩
  · rintro ⟨hx, ⟨c, hc, hcid, hcu⟩, hno, hp⟩
    exact ⟨⟨x, hx, c, ⟨⟨hc, hcid, hcu⟩, rfl⟩⟩, hno, hp⟩

/-- Membership in variant A's listing: exactly the ideas the user can
view that pass the filters. -/
theorem mem_viewIdeasA {db : DBA} {me : Nat} {q : QueryA} {x : IdeaA} :
    x ∈ viewIdeasA db me q ↔
      x ∈ db.ideas ∧ canViewA db me x = true ∧ passesA q x = true := by
  rw [viewIdeasA, List.mem_insertionSort, List.mem_append, mem_myIdeasA,
    mem_sharedIdeasA]
  simp only [canViewA, Bool.or_eq_true, List.any_eq_true,
    Bool.and_eq_true, beq_iff_eq]
  constructor
  · rintro (⟨hx, hu, hp⟩ | ⟨hx, ⟨c, hc, hcid, hcu⟩, _, hp⟩)
    · exact ⟨hx, Or.inl hu, hp⟩
    · exact ⟨hx, Or.inr ⟨c, hc, hcid, hcu⟩, hp⟩
  · rintro ⟨hx, hv, hp⟩
    by_cases hu : x.userid = me
    · exact Or.inl ⟨hx, hu, hp⟩
    · rcases hv with hu' | ⟨c, hc, hcid, hcu⟩
      · exact absurd hu' hu
      · exact Or.inr ⟨hx, ⟨c, hc, hcid, hcu⟩, hu, hp⟩

/-- Membership in variant B's listing. -/
theorem mem_viewIdeasB {db : DBB} {me : Nat} {q : QueryB} {x : IdeaB} :
    x ∈ viewIdeasB db me q ↔
      x ∈ db.ideas ∧ visibleB db me x = true ∧ passesB q x = true := by
  rw [viewIdeasB, List.mem_insertionSort]
  simp [List.mem_filter, and_assoc]
  tauto

/-! ## Claim theorems -/

/-- C1: for every user id and every combination of the optional filters,
every idea in the list returned by the idea listing operation (variant A
`GET /view-ideas` and variant B `GET /ideas`) satisfies `canView` for that
user — the user is its owner or a collaboration row (idea id, user id)
exists; an idea for which the user is neither owner nor collaborator never
appears in the result. -/
theorem c1_listing_respects_canView :
    (∀ (db : DBA) (me : Nat) (q : QueryA),
        (viewIdeasA db me q).all (canViewA db me) = true)
    ∧ ∀ (db : DBB) (me : Nat) (q : QueryB),
        (viewIdeasB db me q).all (canViewB db me) = true := by
  constructor
  · intro db me q
    rw [List.all_eq_true]
    intro x hx
    exact (mem_viewIdeasA.mp hx).2.1
  · intro db me q
    rw [List.all_eq_true]
    intro x hx
    exact (mem_viewIdeasB.mp hx).2.1

/-- Lists of length at most one have no duplicates. -/
theorem nodup_of_length_le_one {α : Type} {l : List α}
    (h : l.length ≤ 1) : l.Nodup := by
  match l with
  | [] => exact List.nodup_nil
  | [a] => exact List.nodup_singleton a
  | a :: b :: t => simp at h

/-- Under the database constraints, the idea ids in variant A's
`sharedIdeasQuery` result are pairwise distinct: the `(ideaid, userid)`
uniqueness of `collaborations` keeps the inner join from duplicating an
idea. -/
theorem nodup_map_ideaid_sharedA (db : DBA) (me : Nat) (q : QueryA)
    (hwf : db.wf) :
    ((sharedIdeasA db me q).map (fun i => i.ideaid)).Nodup := by
  have hsub : List.Sublist
      ((sharedIdeasA db me q).map (fun i => i.ideaid))
      ((db.ideas.flatMap (fun i =>
          (db.collabs.filter
              (fun c => c.ideaid == i.ideaid && c.userid == me)).map
            (fun _ => i))).map (fun i => i.ideaid)) :=
    (List.filter_sublist _).map _
  apply List.Nodup.sublist hsub
  rw [List.map_flatMap]
  rw [List.nodup_flatMap]
  constructor
  · intro i _
    rw [List.map_map]
    apply nodup_of_length_le_one
    rw [List.length_map]
    exact length_filter_le_one_of_key (fun c => (c.ideaid, c.userid))
      db.collabs hwf.2 _ (i.ideaid, me)
      (by
        intro c hc
        rw [Bool.and_eq_true, beq_iff_eq, beq_iff_eq] at hc
        exact Prod.ext hc.1 hc.2)
  · have hpw : db.ideas.Pairwise (fun a b => a.ideaid ≠ b.ideaid) :=
      List.pairwise_map.mp hwf.1
    apply hpw.imp
    intro a b hne x hxa hxb
    obtain ⟨i1, hi1, hx1⟩ := List.mem_map.mp hxa
    obtain ⟨c1, _, rfl⟩ := List.mem_map.mp hi1
    obtain ⟨i2, hi2, hx2⟩ := List.mem_map.mp hxb
    obtain ⟨c2, _, rfl⟩ := List.mem_map.mp hi2
    exact hne (hx1.trans hx2.symm)

/-- C7: for every user and filter combination, each visible idea appears
exactly once in the listing result, deduplicated by idea id (in
particular, an idea owned by the user appears once even when a
self-collaboration row exists): the list of returned idea ids has no
duplicates, in both variants, for databases satisfying the primary-key
and composite-unique constraints; and every stored idea that is viewable
and passes the filters does appear. -/
theorem c7_listing_dedup_by_ideaid :
    (∀ (db : DBA) (me : Nat) (q : QueryA), db.wf →
        ((viewIdeasA db me q).map (fun i => i.ideaid)).Nodup)
    ∧ (∀ (db : DBB) (me : Nat) (q : QueryB), db.wf →
        ((viewIdeasB db me q).map (fun i => i.ideaid)).Nodup)
    ∧ (∀ (db : DBA) (me : Nat) (q : QueryA) (x : IdeaA),
        x ∈ db.ideas → canViewA db me x = true → passesA q x = true →
          x ∈ viewIdeasA db me q)
    ∧ ∀ (db : DBB) (me : Nat) (q : QueryB) (x : IdeaB),
        x ∈ db.ideas → canViewB db me x = true → passesB q x = true →
          x ∈ viewIdeasB db me q := by
  refine ⟨?_, ?_, ?_, ?_⟩
  · intro db me q hwf
    have hperm : List.Perm
        ((viewIdeasA db me q).map (fun i => i.ideaid))
        ((myIdeasA db me q ++ sharedIdeasA db me q).map
          (fun i => i.ideaid)) :=
      (List.perm_insertionSort ordA _).map _
    rw [hperm.nodup_iff, List.map_append, List.nodup_append]
    refine ⟨?_, nodup_map_ideaid_sharedA db me q hwf, ?_⟩
    · apply List.Nodup.sublist
        (((List.filter_sublist _).trans (List.filter_sublist _)).map _)
      exact hwf.1
    · intro x hx1 hx2
      obtain ⟨a, ha, rfl⟩ := List.mem_map.mp hx1
      obtain ⟨b, hb, hab⟩ := List.mem_map.mp hx2
      have h1 := mem_myIdeasA.mp ha
      have h2 := mem_sharedIdeasA.mp hb
      have hab' : a = b :=
        key_injective (fun i => i.ideaid) db.ideas hwf.1 a h1.1 b h2.1
          hab.symm
      exact h2.2.2.1 (hab' ▸ h1.2.1)
  · intro db me q hwf
    have hperm : List.Perm
        ((viewIdeasB db me q).map (fun i => i.ideaid))
        (((db.ideas.filter (visibleB db me)).filter
            (passesB q)).map (fun i => i.ideaid)) :=
      (List.perm_insertionSort ordB _).map _
    rw [hperm.nodup_iff]
    apply List.Nodup.sublist
      (((List.filter_sublist _).trans (List.filter_sublist _)).map _)
    exact hwf.1
  · intro db me q x hx hcv hp
    exact mem_viewIdeasA.mpr ⟨hx, hcv, hp⟩
  · intro db me q x hx hcv hp
    exact mem_viewIdeasB.mpr ⟨hx, hcv, hp⟩

/-- C7 witness: a database where user 1 owns idea 1 and also has a
self-collaboration row on it; the listing still returns idea 1, and only
once. -/
theorem c7_listing_dedup_by_ideaid_witness :
    ((viewIdeasA
        ⟨[⟨1, 1, "a", "d", none, none, none, none, none, some 5⟩],
          [⟨7, 1, 1⟩]⟩ 1 ⟨none, none, none, none⟩).map
      (fun i => i.ideaid)).Nodup
    ∧ ((viewIdeasB
        ⟨[⟨1, 1, "a", "d", none, none, none, none, none, some 5⟩],
          [⟨7, 1, 1⟩]⟩ 1 ⟨none, none, none, none, none, none⟩).map
      (fun i => i.ideaid)).Nodup
    ∧ (⟨1, 1, "a", "d", none, none, none, none, none, some 5⟩ : IdeaA)
        ∈ viewIdeasA
          ⟨[⟨1, 1, "a", "d", none, none, none, none, none, some 5⟩],
            [⟨7, 1, 1⟩]⟩ 1 ⟨none, none, none, none⟩
    ∧ (⟨1, 1, "a", "d", none, none, none, none, none, some 5⟩ : IdeaB)
        ∈ viewIdeasB
          ⟨[⟨1, 1, "a", "d", none, none, none, none, none, some 5⟩],
            [⟨7, 1, 1⟩]⟩ 1 ⟨none, none, none, none, none, none⟩ :=
  ⟨c7_listing_dedup_by_ideaid.1 _ 1 _ (by decide),
    c7_listing_dedup_by_ideaid.2.1 _ 1 _ (by decide),
    c7_listing_dedup_by_ideaid.2.2.1 _ 1 _ _ (by decide) (by decide)
      (by decide),
    c7_listing_dedup_by_ideaid.2.2.2 _ 1 _ _ (by decide) (by decide)
      (by decide)⟩

/-- Field-wise merge of two variant A query-parameter assignments,
preferring the first assignment's parameter when it is supplied
(truthy). -/
def mergeQA (qa qb : QueryA) : QueryA :=
  { marketingstrategy :=
      if truthy qa.marketingstrategy then qa.marketingstrategy
      else qb.marketingstrategy
    maxcost := if truthy qa.maxcost then qa.maxcost else qb.maxcost
    ideaname := if truthy qa.ideaname then qa.ideaname else qb.ideaname
    potential := if truthy qa.potential then qa.potential else qb.potential }

/-- No filter field is supplied by both assignments. -/
def disjointQA (qa qb : QueryA) : Prop :=
  ¬(truthy qa.marketingstrategy = true ∧ truthy qb.marketingstrategy = true)
    ∧ ¬(truthy qa.maxcost = true ∧ truthy qb.maxcost = true)
    ∧ ¬(truthy qa.ideaname = true ∧ truthy qb.ideaname = true)
    ∧ ¬(truthy qa.potential = true ∧ truthy qb.potential = true)

instance (qa qb : QueryA) : Decidable (disjointQA qa qb) := by
  unfold disjointQA
  infer_instance

/-- Field-wise merge of two variant B query-parameter assignments. -/
def mergeQB (qa qb : QueryB) : QueryB :=
  { searchName :=
      if truthy qa.searchName then qa.searchName else qb.searchName
    searchMarketing :=
      if truthy qa.searchMarketing then qa.searchMarketing
      else qb.searchMarketing
    searchCustomer :=
      if truthy qa.searchCustomer then qa.searchCustomer
      else qb.searchCustomer
    minCost := if truthy qa.minCost then qa.minCost else qb.minCost
    maxCost := if truthy qa.maxCost then qa.maxCost else qb.maxCost
    minPotential :=
      if truthy qa.minPotential then qa.minPotential
      else qb.minPotential }

/-- No filter field is supplied by both assignments. -/
def disjointQB (qa qb : QueryB) : Prop :=
  ¬(truthy qa.searchName = true ∧ truthy qb.searchName = true)
    ∧ ¬(truthy qa.searchMarketing = true ∧ truthy qb.searchMarketing = true)
    ∧ ¬(truthy qa.searchCustomer = true ∧ truthy qb.searchCustomer = true)
    ∧ ¬(truthy qa.minCost = true ∧ truthy qb.minCost = true)
    ∧ ¬(truthy qa.maxCost = true ∧ truthy qb.maxCost = true)
    ∧ ¬(truthy qa.minPotential = true ∧ truthy qb.minPotential = true)

instance (qa qb : QueryB) : Decidable (disjointQB qa qb) := by
  unfold disjointQB
  infer_instance

/-- A single optional WHERE clause under a merged parameter equals the
conjunction of the clause under each parameter, provided both are not
supplied at once. -/
theorem optFilter_merge {α : Type} (g : String → α → Bool)
    (pa pb : Option String) (i : α)
    (h : ¬(truthy pa = true ∧ truthy pb = true)) :
    optFilter g (if truthy pa then pa else pb) i
      = (optFilter g pa i && optFilter g pb i) := by
  cases hpa : truthy pa <;> cases hpb : truthy pb <;>
    simp_all [optFilter]

/-- Variant A's filter conjunction distributes over disjoint merges. -/
theorem passesA_merge (qa qb : QueryA) (i : IdeaA)
    (h : disjointQA qa qb) :
    passesA (mergeQA qa qb) i = (passesA qa i && passesA qb i) := by
  obtain ⟨h1, h2, h3, h4⟩ := h
  simp only [passesA, mergeQA, optFilter_merge _ _ _ _ h1,
    optFilter_merge _ _ _ _ h2, optFilter_merge _ _ _ _ h3,
    optFilter_merge _ _ _ _ h4]
  cases optFilter msMatchA qa.marketingstrategy i <;>
    cases optFilter costLeA qa.maxcost i <;>
    cases optFilter nameMatchA qa.ideaname i <;>
    cases optFilter potGeA qa.potential i <;> simp

/-- Variant B's filter conjunction distributes over disjoint merges. -/
theorem passesB_merge (qa qb : QueryB) (i : IdeaB)
    (h : disjointQB qa qb) :
    passesB (mergeQB qa qb) i = (passesB qa i && passesB qb i) := by
  obtain ⟨h1, h2, h3, h4, h5, h6⟩ := h
  simp only [passesB, mergeQB, optFilter_merge _ _ _ _ h1,
    optFilter_merge _ _ _ _ h2, optFilter_merge _ _ _ _ h3,
    optFilter_merge _ _ _ _ h4, optFilter_merge _ _ _ _ h5,
    optFilter_merge _ _ _ _ h6]
  cases optFilter nameMatchB qa.searchName i <;>
    cases optFilter msMatchB qa.searchMarketing i <;>
    cases optFilter custMatchB qa.searchCustomer i <;>
    cases optFilter costGeB qa.minCost i <;>
    cases optFilter costLeB qa.maxCost i <;>
    cases optFilter potGeB qa.minPotential i <;> simp

/-- C8: filter combination is conjunctive.  For any two disjoint filter
assignments, the listing under the combined assignment contains exactly
the idea ids in the intersection of the listings under each assignment
alone (both variants, databases satisfying the key constraints); and an
idea is returned only if it passes every supplied filter. -/
theorem c8_filters_conjunctive :
    (∀ (db : DBA) (me : Nat) (qa qb : QueryA), db.wf → disjointQA qa qb →
      ∀ n : Nat,
        n ∈ (viewIdeasA db me (mergeQA qa qb)).map (fun i => i.ideaid) ↔
          n ∈ (viewIdeasA db me qa).map (fun i => i.ideaid)
            ∧ n ∈ (viewIdeasA db me qb).map (fun i => i.ideaid))
    ∧ (∀ (db : DBA) (me : Nat) (q : QueryA) (x : IdeaA),
        x ∈ viewIdeasA db me q → passesA q x = true)
    ∧ (∀ (db : DBB) (me : Nat) (qa qb : QueryB), db.wf → disjointQB qa qb →
      ∀ n : Nat,
        n ∈ (viewIdeasB db me (mergeQB qa qb)).map (fun i => i.ideaid) ↔
          n ∈ (viewIdeasB db me qa).map (fun i => i.ideaid)
            ∧ n ∈ (viewIdeasB db me qb).map (fun i => i.ideaid))
    ∧ ∀ (db : DBB) (me : Nat) (q : QueryB) (x : IdeaB),
        x ∈ viewIdeasB db me q → passesB q x = true := by
  refine ⟨?_, ?_, ?_, ?_⟩
  · intro db me qa qb hwf hdis n
    constructor
    · intro hn
      obtain ⟨x, hx, rfl⟩ := List.mem_map.mp hn
      obtain ⟨hxi, hcv, hp⟩ := mem_viewIdeasA.mp hx
      rw [passesA_merge qa qb x hdis, Bool.and_eq_true] at hp
      exact ⟨List.mem_map_of_mem _ (mem_viewIdeasA.mpr ⟨hxi, hcv, hp.1⟩),
        List.mem_map_of_mem _ (mem_viewIdeasA.mpr ⟨hxi, hcv, hp.2⟩)⟩
    · rintro ⟨hna, hnb⟩
      obtain ⟨x, hx, rfl⟩ := List.mem_map.mp hna
      obtain ⟨y, hy, hyx⟩ := List.mem_map.mp hnb
      obtain ⟨hxi, hcv, hpa⟩ := mem_viewIdeasA.mp hx
      obtain ⟨hyi, _, hpb⟩ := mem_viewIdeasA.mp hy
      have hxy : y = x :=
        key_injective (fun i => i.ideaid) db.ideas hwf.1 y hyi x hxi hyx
      subst hxy
      refine List.mem_map_of_mem _ (mem_viewIdeasA.mpr ⟨hxi, hcv, ?_⟩)
      rw [passesA_merge qa qb y hdis, Bool.and_eq_true]
      exact ⟨hpa, hpb⟩
  · intro db me q x hx
    exact (mem_viewIdeasA.mp hx).2.2
  · intro db me qa qb hwf hdis n
    constructor
    · intro hn
      obtain ⟨x, hx, rfl⟩ := List.mem_map.mp hn
      obtain ⟨hxi, hcv, hp⟩ := mem_viewIdeasB.mp hx
      rw [passesB_merge qa qb x hdis, Bool.and_eq_true] at hp
      exact ⟨List.mem_map_of_mem _ (mem_viewIdeasB.mpr ⟨hxi, hcv, hp.1⟩),
        List.mem_map_of_mem _ (mem_viewIdeasB.mpr ⟨hxi, hcv, hp.2⟩)⟩
    · rintro ⟨hna, hnb⟩
      obtain ⟨x, hx, rfl⟩ := List.mem_map.mp hna
      obtain ⟨y, hy, hyx⟩ := List.mem_map.mp hnb
      obtain ⟨hxi, hcv, hpa⟩ := mem_viewIdeasB.mp hx
      obtain ⟨hyi, _, hpb⟩ := mem_viewIdeasB.mp hy
      have hxy : y = x :=
        key_injective (fun i => i.ideaid) db.ideas hwf.1 y hyi x hxi hyx
      subst hxy
      refine List.mem_map_of_mem _ (mem_viewIdeasB.mpr ⟨hxi, hcv, ?_⟩)
      rw [passesB_merge qa qb y hdis, Bool.and_eq_true]
      exact ⟨hpa, hpb⟩
  · intro db me q x hx
    exact (mem_viewIdeasB.mp hx).2.2

/-- Concrete variant A state for exercising the filter theorems. -/
def ideaA8 : IdeaA :=
  ⟨1, 1, "alpha", "d", some ["web"], none, some 50, none, some 5, some 10⟩

/-- Concrete variant A database for exercising the filter theorems. -/
def dbA8 : DBA :=
  ⟨[ideaA8], []⟩

/-- Concrete variant B state for exercising the filter theorems. -/
def ideaB8 : IdeaB :=
  ⟨1, 1, "alpha", "d", none, none, some 50, none, some 5, some 10⟩

/-- Concrete variant B database for exercising the filter theorems. -/
def dbB8 : DBB :=
  ⟨[ideaB8], []⟩

/-- C8 witness: a marketing filter merged with a cost bound on a concrete
one-idea database (variant A), and a cost range split across two
assignments (variant B). -/
theorem c8_filters_conjunctive_witness :
    ((1 : Nat) ∈ (viewIdeasA dbA8 1
          (mergeQA ⟨some "web", none, none, none⟩
            ⟨none, some "100", none, none⟩)).map (fun i => i.ideaid) ↔
        (1 : Nat) ∈ (viewIdeasA dbA8 1
            ⟨some "web", none, none, none⟩).map (fun i => i.ideaid)
          ∧ (1 : Nat) ∈ (viewIdeasA dbA8 1
              ⟨none, some "100", none, none⟩).map (fun i => i.ideaid))
    ∧ passesA ⟨none, some "100", none, none⟩ ideaA8 = true
    ∧ ((1 : Nat) ∈ (viewIdeasB dbB8 1
          (mergeQB ⟨none, none, none, some "10", none, none⟩
            ⟨none, none, none, none, some "100", none⟩)).map
          (fun i => i.ideaid) ↔
        (1 : Nat) ∈ (viewIdeasB dbB8 1
            ⟨none, none, none, some "10", none, none⟩).map
            (fun i => i.ideaid)
          ∧ (1 : Nat) ∈ (viewIdeasB dbB8 1
              ⟨none, none, none, none, some "100", none⟩).map
              (fun i => i.ideaid))
    ∧ passesB ⟨none, none, none, some "10", none, none⟩ ideaB8 = true :=
  ⟨c8_filters_conjunctive.1 dbA8 1 _ _ (by decide) (by decide) 1,
    c8_filters_conjunctive.2.1 dbA8 1 _ ideaA8 (by decide),
    c8_filters_conjunctive.2.2.1 dbB8 1 _ _ (by decide) (by decide) 1,
    c8_filters_conjunctive.2.2.2 dbB8 1 _ ideaB8 (by decide)⟩

/-- Modelled from the claim's words (C9): adjacent listing entries are
newest-first by creation timestamp, falling back to descending idea id
when a timestamp is absent or the timestamps tie. -/
def claimNewestFirstB (a b : IdeaB) : Bool :=
  (match a.createdat, b.createdat with
    | some ta, some tb => decide (tb ≤ ta)
    | _, _ => false)
  || ((a.createdat.isNone || b.createdat.isNone
        || a.createdat == b.createdat)
      && decide (b.ideaid < a.ideaid))

/-- Newer idea with the smaller id: `ORDER BY ideaid DESC` puts it last. -/
def ideaB9new : IdeaB :=
  ⟨1, 1, "a", "d", none, none, none, none, none, some 200⟩

/-- Older idea with the larger id. -/
def ideaB9old : IdeaB :=
  ⟨2, 1, "b", "d", none, none, none, none, none, some 100⟩

/-- Concrete database refuting the claimed sort order for variant B. -/
def dbB9 : DBB :=
  ⟨[ideaB9new, ideaB9old], []⟩

/-- C9 counterexample: variant B's `GET /ideas` orders by descending idea
id only; with idea 1 created at time 200 and idea 2 at time 100, the
listing is `[idea 2, idea 1]`, whose adjacent pair has an older creation
timestamp first while the timestamps are neither absent nor tied — the
claimed ordering predicate fails. -/
theorem c9_sort_counterexample :
    viewIdeasB dbB9 1 ⟨none, none, none, none, none, none⟩
        = [ideaB9old, ideaB9new]
    ∧ claimNewestFirstB ideaB9old ideaB9new = false
    ∧ ¬List.Chain' (fun a b => claimNewestFirstB a b = true)
        (viewIdeasB dbB9 1 ⟨none, none, none, none, none, none⟩) := by
  refine ⟨by decide, by decide, ?_⟩
  intro h
  rw [show viewIdeasB dbB9 1 ⟨none, none, none, none, none, none⟩
      = [ideaB9old, ideaB9new] from by decide] at h
  rw [List.chain'_cons] at h
  exact absurd h.1 (by decide)

/-- C9 amended: variant A sorts the listing newest-first by creation
timestamp with no id tie-break (rows with an absent timestamp keyed as
epoch 0, the order among equals being the stable sort's); variant B sorts
by descending idea id only, regardless of timestamps. -/
theorem c9_listing_sort_amended :
    (∀ (db : DBA) (me : Nat) (q : QueryA),
        (viewIdeasA db me q).Pairwise
          (fun a b => dateKey b.createdat ≤ dateKey a.createdat))
    ∧ ∀ (db : DBB) (me : Nat) (q : QueryB),
        (viewIdeasB db me q).Pairwise (fun a b => b.ideaid ≤ a.ideaid) := by
  constructor
  · intro db me q
    exact List.sorted_insertionSort ordA _
  · intro db me q
    exact List.sorted_insertionSort ordB _

/-- Idea with a positive estimated cost, for the C10 counterexample. -/
def ideaC10 : IdeaA :=
  ⟨1, 1, "a", "d", none, none, some 5, none, none, some 10⟩

/-- Concrete database for the C10 counterexample. -/
def dbC10 : DBA :=
  ⟨[ideaC10], []⟩

/-- C10 counterexample: query strings are strings, and the string `"0"`
is truthy in JavaScript, so `maxcost=0` does apply the constraint
`estimatedcost <= 0`: with it the listing drops an owned idea of cost 5
that the unfiltered listing returns — `"0"` is not treated as absent. -/
theorem c10_zero_truthy_counterexample :
    viewIdeasA dbC10 1 ⟨none, some "0", none, none⟩ = []
    ∧ viewIdeasA dbC10 1 ⟨none, none, none, none⟩ = [ideaC10]
    ∧ viewIdeasA dbC10 1 ⟨none, some "0", none, none⟩
        ≠ viewIdeasA dbC10 1 ⟨none, none, none, none⟩ := by
  refine ⟨by decide, by decide, ?_⟩
  intro h
  rw [show viewIdeasA dbC10 1 ⟨none, some "0", none, none⟩ = [] from
    by decide] at h
  rw [show viewIdeasA dbC10 1 ⟨none, none, none, none⟩ = [ideaC10] from
    by decide] at h
  cases h

/-- Listings only depend on the query through the filter conjunction. -/
theorem viewIdeasA_congr (db : DBA) (me : Nat) {q q' : QueryA}
    (h : passesA q = passesA q') :
    viewIdeasA db me q = viewIdeasA db me q' := by
  unfold viewIdeasA myIdeasA sharedIdeasA
  rw [h]

/-- Listings only depend on the query through the filter conjunction. -/
theorem viewIdeasB_congr (db : DBB) (me : Nat) {q q' : QueryB}
    (h : passesB q = passesB q') :
    viewIdeasB db me q = viewIdeasB db me q' := by
  unfold viewIdeasB
  rw [h]

/-- C10 amended: a numeric filter parameter submitted as the empty string
(or absent) is treated as absent — no constraint is applied — but the
string `"0"` is truthy and applies a zero threshold, so a threshold of
zero can be expressed through the query string: every idea returned under
`maxcost="0"` (variant A) has a non-NULL estimated cost at most 0, and
every idea returned under `minPotential="0"` (variant B) has a non-NULL
potential at least 0. -/
theorem c10_numeric_filter_truthiness_amended :
    (∀ (db : DBA) (me : Nat) (q : QueryA),
        viewIdeasA db me { q with maxcost := some "" }
            = viewIdeasA db me { q with maxcost := none }
          ∧ viewIdeasA db me { q with potential := some "" }
            = viewIdeasA db me { q with potential := none })
    ∧ (∀ (db : DBB) (me : Nat) (q : QueryB),
        viewIdeasB db me { q with minCost := some "" }
            = viewIdeasB db me { q with minCost := none }
          ∧ viewIdeasB db me { q with maxCost := some "" }
            = viewIdeasB db me { q with maxCost := none }
          ∧ viewIdeasB db me { q with minPotential := some "" }
            = viewIdeasB db me { q with minPotential := none })
    ∧ (∀ (db : DBA) (me : Nat),
        (viewIdeasA db me ⟨none, some "0", none, none⟩).all
          (fun i => sqlLeNum i.estimatedcost (some 0)) = true)
    ∧ ∀ (db : DBB) (me : Nat),
        (viewIdeasB db me ⟨none, none, none, none, none, some "0"⟩).all
          (fun i => sqlGeNum i.potential (some 0)) = true := by
  refine ⟨?_, ?_, ?_, ?_⟩
  · intro db me q
    constructor <;>
      exact viewIdeasA_congr db me (by
        funext i
        simp [passesA, optFilter, truthy])
  · intro db me q
    refine ⟨?_, ?_, ?_⟩ <;>
      exact viewIdeasB_congr db me (by
        funext i
        simp [passesB, optFilter, truthy])
  · intro db me
    rw [List.all_eq_true]
    intro x hx
    have hp := (mem_viewIdeasA.mp hx).2.2
    simp only [passesA, optFilter, Bool.and_eq_true] at hp
    have hB := hp.1.1.2
    rw [if_pos (show truthy (some "0") = true from by decide)] at hB
    simp only [Option.getD_some, costLeA] at hB
    rwa [show jsParseNum "0" = some 0 from by decide] at hB
  · intro db me
    rw [List.all_eq_true]
    intro x hx
    have hp := (mem_viewIdeasB.mp hx).2.2
    simp only [passesB, optFilter, Bool.and_eq_true] at hp
    have hB := hp.2
    rw [if_pos (show truthy (some "0") = true from by decide)] at hB
    simp only [Option.getD_some, potGeB] at hB
    rwa [show jsParseNum "0" = some 0 from by decide] at hB

/-- Variant A state with one idea (id 1, owner 1) that has one
collaboration row (user 2). -/
def dbC2A : DBA :=
  ⟨[⟨1, 1, "a", "d", none, none, none, none, none, none⟩], [⟨1, 1, 2⟩]⟩

/-- The same state as a variant B database. -/
def dbC2B : DBB :=
  ⟨[⟨1, 1, "a", "d", none, none, none, none, none, none⟩], [⟨1, 1, 2⟩]⟩

/-- C2 evaluation at the failing input: when the owner (user 1) deletes
idea 1, variant B first deletes the dependent collaboration rows and then
the idea, leaving zero collaboration rows referencing it — but variant A's
`POST /delete-idea/:id` issues only the `idea_details` delete, leaving the
collaboration row `(ideaid 1, userid 2)` behind (against the
`collaborations.ideaid` foreign key, that single delete statement would in
fact be rejected by the store).  A non-owner's delete removes nothing in
either variant. -/
theorem c2_delete_collaborations_divergence :
    (deleteIdeaA dbC2A 1 1).ideas = []
    ∧ (deleteIdeaA dbC2A 1 1).collabs = [⟨1, 1, 2⟩]
    ∧ (deleteIdeaB dbC2B 1 1).ideas = []
    ∧ (deleteIdeaB dbC2B 1 1).collabs = []
    ∧ deleteIdeaA dbC2A 2 1 = dbC2A
    ∧ deleteIdeaB dbC2B 2 1 = dbC2B := by
  refine ⟨by decide, by decide, by decide, by decide, by decide, by decide⟩

/-- C3 counterexample: variant A's `POST /add-idea` performs no
validation, so a submission with an empty idea name still reaches the
insert — the operation neither fails with a validation error nor declines
to insert a row. -/
theorem c3_no_validation_counterexample :
    addIdeaA 1 ⟨some "", some "desc", MsInput.absent, none, none, none,
        none⟩
      = some ⟨some "", some "desc", none, none, none, none, none, 1⟩ := by
  decide

/-- C3 amended: variant B's `POST /addIdea` rejects an empty or absent
name or description with a validation error and inserts nothing, while
variant A inserts without any validation; in both variants every inserted
row carries the session user as owner, and an empty or absent numeric
field (estimated cost, potential) is stored as NULL — never `NaN` and
never zero. -/
theorem c3_createIdea_amended :
    (∀ (me : Nat) (f : FormB),
        truthy f.ideaname = false ∨ truthy f.ideadescription = false →
        addIdeaB me f = none)
    ∧ (∀ (me : Nat) (f : FormB) (r : NewIdeaB), addIdeaB me f = some r →
        r.userid = me
          ∧ (truthy f.estimatedcost = false →
              r.estimatedcost = StoredNum.null)
          ∧ (truthy f.potential = false → r.potential = StoredNum.null))
    ∧ ∀ (me : Nat) (f : FormA) (r : NewIdeaA), addIdeaA me f = some r →
        r.userid = me
          ∧ (truthy f.estimatedcost = false → r.estimatedcost = none)
          ∧ (truthy f.potential = false → r.potential = none) := by
  refine ⟨?_, ?_, ?_⟩
  · intro me f h
    rcases h with h | h <;> simp [addIdeaB, h]
  · intro me f r h
    rw [addIdeaB] at h
    by_cases hg : (!truthy f.ideaname || !truthy f.ideadescription) = true
    · rw [if_pos hg] at h
      cases h
    · rw [if_neg hg] at h
      injection h with h
      subst h
      refine ⟨rfl, ?_, ?_⟩ <;> intro hf <;> simp [parsedNumB, hf]
  · intro me f r h
    rw [addIdeaA] at h
    injection h with h
    subst h
    refine ⟨rfl, ?_, ?_⟩ <;> intro hf <;> simp [jsOrNull, hf]

/-- C3 witness: the empty-name form is rejected by variant B; a valid
form with empty cost and absent potential is stored with NULL numerics
and the session user (2) as owner, in both variants. -/
theorem c3_createIdea_amended_witness :
    addIdeaB 1 ⟨some "", some "d", none, none, none, none, none⟩ = none
    ∧ ((⟨2, "n", "d", none, none, StoredNum.null, none,
          StoredNum.null⟩ : NewIdeaB).userid = 2
        ∧ (⟨2, "n", "d", none, none, StoredNum.null, none,
            StoredNum.null⟩ : NewIdeaB).estimatedcost = StoredNum.null
        ∧ (⟨2, "n", "d", none, none, StoredNum.null, none,
            StoredNum.null⟩ : NewIdeaB).potential = StoredNum.null)
    ∧ ((⟨some "n", some "d", none, none, none, none, none,
          2⟩ : NewIdeaA).userid = 2
        ∧ (⟨some "n", some "d", none, none, none, none, none,
            2⟩ : NewIdeaA).estimatedcost = none
        ∧ (⟨some "n", some "d", none, none, none, none, none,
            2⟩ : NewIdeaA).potential = none) := by
  refine ⟨?_, ?_, ?_⟩
  · exact c3_createIdea_amended.1 1 _ (Or.inl (by decide))
  · have h := c3_createIdea_amended.2.1 2
      ⟨some "n", some "d", none, none, some "", none, none⟩
      ⟨2, "n", "d", none, none, StoredNum.null, none, StoredNum.null⟩
      (by decide)
    exact ⟨h.1, h.2.1 (by decide), h.2.2 (by decide)⟩
  · have h := c3_createIdea_amended.2.2 2
      ⟨some "n", some "d", MsInput.absent, none, some "", none, none⟩
      ⟨some "n", some "d", none, none, none, none, none, 2⟩
      (by decide)
    exact ⟨h.1, h.2.1 (by decide), h.2.2 (by decide)⟩

/-- C4: `leaveCollaboration` (variant B) deletes the requesting user's own
collaboration row for the idea with no ownership requirement (the result
does not depend on who owns the idea), leaving every other collaboration
row and all ideas untouched; removing a collaboration through the
collaborator-removal routes changes the database only when the requester
owns the idea the collaboration belongs to (both variants). -/
theorem c4_leave_self_remove_owner_gate :
    (∀ (db : DBB) (me ideaId : Nat),
        (leaveCollaborationB db me ideaId).ideas = db.ideas
          ∧ ((leaveCollaborationB db me ideaId).collabs.all
              (fun c => !(c.ideaid == ideaId && c.userid == me)) = true)
          ∧ ∀ c ∈ db.collabs, ¬(c.ideaid = ideaId ∧ c.userid = me) →
              c ∈ (leaveCollaborationB db me ideaId).collabs)
    ∧ (∀ (db : DBB) (me collabId : Nat),
        removeCollaboratorB db me collabId ≠ db →
          ∃ c ∈ db.collabs, c.collaborationid = collabId
            ∧ ∃ i ∈ db.ideas, i.ideaid = c.ideaid ∧ i.userid = me)
    ∧ ∀ (db : DBA) (me ideaId target : Nat),
        removeCollaboratorA db me ideaId target ≠ db →
          ∃ i ∈ db.ideas, i.ideaid = ideaId ∧ i.userid = me := by
  refine ⟨?_, ?_, ?_⟩
  · intro db me ideaId
    refine ⟨rfl, ?_, ?_⟩
    · rw [List.all_eq_true]
      intro c hc
      exact (List.mem_filter.mp hc).2
    · intro c hc hne
      refine List.mem_filter.mpr ⟨hc, ?_⟩
      simp only [Bool.not_eq_true', Bool.and_eq_false_iff,
        beq_eq_false_iff_ne, ne_eq]
      by_cases h1 : c.ideaid = ideaId
      · exact Or.inr fun h2 => hne ⟨h1, h2⟩
      · exact Or.inl h1
  · intro db me collabId hne
    cases hfind : db.collabs.find? (fun c => c.collaborationid == collabId)
      with
    | none =>
      exact absurd (by rw [removeCollaboratorB]; simp [hfind]) hne
    | some c =>
      cases hidea : db.ideas.find? (fun i => i.ideaid == c.ideaid) with
      | none =>
        exact absurd (by rw [removeCollaboratorB]; simp [hfind, hidea]) hne
      | some idea =>
        by_cases howner : (idea.userid == me) = true
        · refine ⟨c, List.mem_of_find?_eq_some hfind, ?_, idea,
            List.mem_of_find?_eq_some hidea, ?_, ?_⟩
          · have := List.find?_some hfind
            rwa [beq_iff_eq] at this
          · have := List.find?_some hidea
            rwa [beq_iff_eq] at this
          · rwa [beq_iff_eq] at howner
        · have how' : (idea.userid == me) = false := by
            simpa using howner
          exact absurd
            (by rw [removeCollaboratorB]; simp [hfind, hidea, how']) hne
  · intro db me ideaId target hne
    cases hfind : db.ideas.find? (fun i => i.ideaid == ideaId) with
    | none =>
      exact absurd (by rw [removeCollaboratorA]; simp [hfind]) hne
    | some idea =>
      by_cases howner : (idea.userid == me) = true
      · refine ⟨idea, List.mem_of_find?_eq_some hfind, ?_, ?_⟩
        · have := List.find?_some hfind
          rwa [beq_iff_eq] at this
        · rwa [beq_iff_eq] at howner
      · have how' : (idea.userid == me) = false := by
          simpa using howner
        exact absurd (by rw [removeCollaboratorA]; simp [hfind, how'])
          hne

/-- Variant B state with idea 1 owned by user 1 and user 2 collaborating
(collaboration row id 10). -/
def dbC4B : DBB :=
  ⟨[⟨1, 1, "a", "d", none, none, none, none, none, none⟩], [⟨10, 1, 2⟩]⟩

/-- Variant A state with idea 1 owned by user 1 and user 2 collaborating. -/
def dbC4A : DBA :=
  ⟨[⟨1, 1, "a", "d", none, none, none, none, none, none⟩], [⟨10, 1, 2⟩]⟩

/-- C4 witness: a non-matching collaboration row survives a leave by user
3, and each removal route actually changed a concrete database, forcing
the existence of the owning requester. -/
theorem c4_leave_self_remove_owner_gate_witness :
    ((⟨10, 1, 2⟩ : Collab) ∈ (leaveCollaborationB dbC4B 3 1).collabs)
    ∧ (∃ c ∈ dbC4B.collabs, c.collaborationid = 10
        ∧ ∃ i ∈ dbC4B.ideas, i.ideaid = c.ideaid ∧ i.userid = 1)
    ∧ ∃ i ∈ dbC4A.ideas, i.ideaid = 1 ∧ i.userid = 1 := by
  refine ⟨?_, ?_, ?_⟩
  · exact (c4_leave_self_remove_owner_gate.1 dbC4B 3 1).2.2 ⟨10, 1, 2⟩
      (by decide) (by decide)
  · exact c4_leave_self_remove_owner_gate.2.1 dbC4B 1 10 (by decide)
  · exact c4_leave_self_remove_owner_gate.2.2 dbC4A 1 1 2 (by decide)

/-- Inserting a pair that already exists is a no-op. -/
theorem collabInsertStep_of_any (l : List Collab) (i t : Nat)
    (h : l.any (fun c => c.ideaid == i && c.userid == t) = true) :
    collabInsertStep l i t = l := by
  rw [collabInsertStep, if_pos h]

/-- The collaboration insert is idempotent. -/
theorem collabInsertStep_idem (l : List Collab) (i t : Nat) :
    collabInsertStep (collabInsertStep l i t) i t
      = collabInsertStep l i t := by
  by_cases h : l.any (fun c => c.ideaid == i && c.userid == t) = true
  · rw [collabInsertStep_of_any l i t h]
    exact collabInsertStep_of_any l i t h
  · have h2 : collabInsertStep l i t = l ++ [⟨nextCollabId l, i, t⟩] := by
      rw [collabInsertStep, if_neg h]
    rw [h2]
    apply collabInsertStep_of_any
    rw [List.any_eq_true]
    exact ⟨⟨nextCollabId l, i, t⟩,
      List.mem_append_right _ (List.mem_singleton_self _), by simp⟩

/-- After the insert, exactly one row carries the pair (for pair-unique
starting states). -/
theorem collabInsertStep_count (l : List Collab) (i t : Nat)
    (hnd : (l.map (fun c => (c.ideaid, c.userid))).Nodup) :
    ((collabInsertStep l i t).filter
        (fun c => c.ideaid == i && c.userid == t)).length = 1 := by
  by_cases h : l.any (fun c => c.ideaid == i && c.userid == t) = true
  · rw [collabInsertStep_of_any l i t h]
    have hle := length_filter_le_one_of_key (fun c => (c.ideaid, c.userid))
      l hnd (fun c => c.ideaid == i && c.userid == t) (i, t) (by
        intro c hc
        rw [Bool.and_eq_true, beq_iff_eq, beq_iff_eq] at hc
        exact Prod.ext hc.1 hc.2)
    rw [List.any_eq_true] at h
    obtain ⟨c, hc, hpc⟩ := h
    have hmem : c ∈ l.filter (fun c => c.ideaid == i && c.userid == t) :=
      List.mem_filter.mpr ⟨hc, hpc⟩
    have hpos := List.length_pos_of_mem hmem
    omega
  · rw [collabInsertStep, if_neg h, List.filter_append]
    have h1 : l.filter (fun c => c.ideaid == i && c.userid == t) = [] := by
      rw [List.filter_eq_nil_iff]
      intro c hc hpc
      exact h (List.any_eq_true.mpr ⟨c, hc, hpc⟩)
    rw [h1]
    simp

/-- C5: `addCollaborator` is owner-gated and idempotent.  When the
requester owns the idea, invoking it twice with the same target leaves
exactly one collaboration row for the `(idea id, user id)` pair and the
second invocation is a no-op rather than an error; when no idea with that
id is owned by the requester, nothing is inserted (both variants). -/
theorem c5_addCollaborator_idempotent_owner_gated :
    (∀ (db : DBA) (me ideaId target : Nat) (idea : IdeaA),
        db.wf → idea ∈ db.ideas → idea.ideaid = ideaId →
        idea.userid = me →
          ((addCollaboratorA (addCollaboratorA db me ideaId target) me
                ideaId target).collabs.filter
              (fun c => c.ideaid == ideaId && c.userid == target)).length
              = 1
          ∧ addCollaboratorA (addCollaboratorA db me ideaId target) me
              ideaId target = addCollaboratorA db me ideaId target)
    ∧ (∀ (db : DBA) (me ideaId target : Nat),
        (∀ i ∈ db.ideas, i.ideaid = ideaId → i.userid ≠ me) →
          addCollaboratorA db me ideaId target = db)
    ∧ (∀ (db : DBB) (me ideaId target : Nat) (idea : IdeaB),
        db.wf → idea ∈ db.ideas → idea.ideaid = ideaId →
        idea.userid = me →
          ((addCollaboratorB (addCollaboratorB db me ideaId target) me
                ideaId target).collabs.filter
              (fun c => c.ideaid == ideaId && c.userid == target)).length
              = 1
          ∧ addCollaboratorB (addCollaboratorB db me ideaId target) me
              ideaId target = addCollaboratorB db me ideaId target)
    ∧ ∀ (db : DBB) (me ideaId target : Nat),
        (∀ i ∈ db.ideas, i.ideaid = ideaId → i.userid ≠ me) →
          addCollaboratorB db me ideaId target = db := by
  refine ⟨?_, ?_, ?_, ?_⟩
  · intro db me ideaId target idea hwf hmem hid howner
    subst hid
    subst howner
    have hfind : db.ideas.find? (fun i => i.ideaid == idea.ideaid)
        = some idea :=
      find?_key_eq (fun i => i.ideaid) db.ideas hwf.1 idea hmem
    have hstep : addCollaboratorA db idea.userid idea.ideaid target
        = { db with
              collabs := collabInsertStep db.collabs idea.ideaid target } := by
      rw [addCollaboratorA]
      simp [hfind]
    have hstep2 : addCollaboratorA
        { db with
            collabs := collabInsertStep db.collabs idea.ideaid target }
        idea.userid idea.ideaid target
        = { db with
              collabs := collabInsertStep
                (collabInsertStep db.collabs idea.ideaid target)
                idea.ideaid target } := by
      rw [addCollaboratorA]
      simp [hfind]
    rw [hstep, hstep2, collabInsertStep_idem]
    exact ⟨collabInsertStep_count db.collabs idea.ideaid target hwf.2, rfl⟩
  · intro db me ideaId target hno
    cases hfind : db.ideas.find? (fun i => i.ideaid == ideaId) with
    | none =>
      rw [addCollaboratorA]
      simp [hfind]
    | some idea =>
      have h1 : idea.ideaid = ideaId := by
        have := List.find?_some hfind
        rwa [beq_iff_eq] at this
      have h2 : (idea.userid == me) = false := by
        rw [beq_eq_false_iff_ne]
        exact hno idea (List.mem_of_find?_eq_some hfind) h1
      rw [addCollaboratorA]
      simp [hfind, h2]
  · intro db me ideaId target idea hwf hmem hid howner
    subst hid
    subst howner
    have hfind : db.ideas.find? (fun i => i.ideaid == idea.ideaid)
        = some idea :=
      find?_key_eq (fun i => i.ideaid) db.ideas hwf.1 idea hmem
    have hstep : addCollaboratorB db idea.userid idea.ideaid target
        = { db with
              collabs := collabInsertStep db.collabs idea.ideaid target } := by
      rw [addCollaboratorB]
      simp [hfind]
    have hstep2 : addCollaboratorB
        { db with
            collabs := collabInsertStep db.collabs idea.ideaid target }
        idea.userid idea.ideaid target
        = { db with
              collabs := collabInsertStep
                (collabInsertStep db.collabs idea.ideaid target)
                idea.ideaid target } := by
      rw [addCollaboratorB]
      simp [hfind]
    rw [hstep, hstep2, collabInsertStep_idem]
    exact ⟨collabInsertStep_count db.collabs idea.ideaid target hwf.2, rfl⟩
  · intro db me ideaId target hno
    cases hfind : db.ideas.find? (fun i => i.ideaid == ideaId) with
    | none =>
      rw [addCollaboratorB]
      simp [hfind]
    | some idea =>
      have h1 : idea.ideaid = ideaId := by
        have := List.find?_some hfind
        rwa [beq_iff_eq] at this
      have h2 : (idea.userid == me) = false := by
        rw [beq_eq_false_iff_ne]
        exact hno idea (List.mem_of_find?_eq_some hfind) h1
      rw [addCollaboratorB]
      simp [hfind, h2]

/-- Variant A state for the C5 witness: idea 1 owned by user 1, no
collaborations yet. -/
def dbC5A : DBA :=
  ⟨[⟨1, 1, "a", "d", none, none, none, none, none, none⟩], []⟩

/-- Variant B state for the C5 witness. -/
def dbC5B : DBB :=
  ⟨[⟨1, 1, "a", "d", none, none, none, none, none, none⟩], []⟩

/-- C5 witness: owner 1 adds collaborator 2 twice — one row, second call a
no-op; user 3 (not the owner) adds nothing. -/
theorem c5_addCollaborator_idempotent_owner_gated_witness :
    ((addCollaboratorA (addCollaboratorA dbC5A 1 1 2) 1 1 2).collabs.filter
        (fun c => c.ideaid == 1 && c.userid == 2)).length = 1
    ∧ addCollaboratorA (addCollaboratorA dbC5A 1 1 2) 1 1 2
        = addCollaboratorA dbC5A 1 1 2
    ∧ addCollaboratorA dbC5A 3 1 2 = dbC5A
    ∧ ((addCollaboratorB (addCollaboratorB dbC5B 1 1 2) 1 1
          2).collabs.filter
        (fun c => c.ideaid == 1 && c.userid == 2)).length = 1
    ∧ addCollaboratorB (addCollaboratorB dbC5B 1 1 2) 1 1 2
        = addCollaboratorB dbC5B 1 1 2
    ∧ addCollaboratorB dbC5B 3 1 2 = dbC5B := by
  have hA := c5_addCollaborator_idempotent_owner_gated.1 dbC5A 1 1 2
    ⟨1, 1, "a", "d", none, none, none, none, none, none⟩
    (by decide) (by decide) rfl rfl
  have hB := c5_addCollaborator_idempotent_owner_gated.2.2.1 dbC5B 1 1 2
    ⟨1, 1, "a", "d", none, none, none, none, none, none⟩
    (by decide) (by decide) rfl rfl
  exact ⟨hA.1, hA.2,
    c5_addCollaborator_idempotent_owner_gated.2.1 dbC5A 3 1 2 (by decide),
    hB.1, hB.2,
    c5_addCollaborator_idempotent_owner_gated.2.2.2 dbC5B 3 1 2
      (by decide)⟩

/-- C6: every idea has exactly one user id satisfying `isOwner`, and no
operation writes the owning user id after creation: both edit routes
preserve every row's `(ideaid, userid)` pair while (given permission, and
for variant B a valid form) writing every editable field of the matched
row; the collaborator routes leave `idea_details` untouched; the delete
routes only remove whole rows, never altering a surviving row. -/
theorem c6_owner_unique_immutable :
    (∀ i : IdeaA, ∃! u, isOwnerA i u)
    ∧ (∀ i : IdeaB, ∃! u, isOwnerB i u)
    ∧ (∀ (db : DBA) (me ideaId : Nat) (f : FormA),
        (editIdeaA db me ideaId f).ideas.map (fun i => (i.ideaid, i.userid))
          = db.ideas.map (fun i => (i.ideaid, i.userid)))
    ∧ (∀ (db : DBB) (me ideaId : Nat) (f : FormB),
        (editIdeaB db me ideaId f).ideas.map (fun i => (i.ideaid, i.userid))
          = db.ideas.map (fun i => (i.ideaid, i.userid)))
    ∧ (∀ (db : DBA) (me ideaId : Nat) (f : FormA) (idea : IdeaA),
        db.wf → idea ∈ db.ideas → idea.ideaid = ideaId →
        (idea.userid = me
          ∨ ∃ c ∈ db.collabs, c.ideaid = ideaId ∧ c.userid = me) →
          updatedRowA f idea ∈ (editIdeaA db me ideaId f).ideas
          ∧ (updatedRowA f idea).userid = idea.userid
          ∧ (updatedRowA f idea).ideaname = f.ideaname.getD idea.ideaname
          ∧ (updatedRowA f idea).ideadescription
              = f.ideadescription.getD idea.ideadescription
          ∧ (updatedRowA f idea).marketingstrategy
              = marketingArrayA f.marketingstrategy
          ∧ (updatedRowA f idea).targetcustomer = jsOrNull f.targetcustomer
          ∧ (updatedRowA f idea).estimatedcost = castNumCol f.estimatedcost
          ∧ (updatedRowA f idea).timeline = jsOrNull f.timeline
          ∧ (updatedRowA f idea).potential = castNumCol f.potential)
    ∧ (∀ (db : DBB) (me ideaId : Nat) (f : FormB) (idea : IdeaB),
        db.wf → idea ∈ db.ideas → idea.ideaid = ideaId →
        truthy f.ideaname = true → truthy f.ideadescription = true →
        (idea.userid = me
          ∨ ∃ c ∈ db.collabs, c.ideaid = ideaId ∧ c.userid = me) →
          updatedRowB f idea ∈ (editIdeaB db me ideaId f).ideas
          ∧ (updatedRowB f idea).userid = idea.userid
          ∧ (updatedRowB f idea).ideaname = f.ideaname.getD ""
          ∧ (updatedRowB f idea).ideadescription = f.ideadescription.getD ""
          ∧ (updatedRowB f idea).marketingstrategy
              = jsOrNull f.marketingstrategy
          ∧ (updatedRowB f idea).targetcustomer = jsOrNull f.targetcustomer
          ∧ (updatedRowB f idea).estimatedcost = parseNumColB f.estimatedcost
          ∧ (updatedRowB f idea).timeline = jsOrNull f.timeline
          ∧ (updatedRowB f idea).potential = parseNumColB f.potential)
    ∧ (∀ (db : DBA) (me ideaId target : Nat),
        (addCollaboratorA db me ideaId target).ideas = db.ideas
          ∧ (removeCollaboratorA db me ideaId target).ideas = db.ideas)
    ∧ (∀ (db : DBB) (me ideaId target : Nat),
        (addCollaboratorB db me ideaId target).ideas = db.ideas
          ∧ (removeCollaboratorB db me ideaId).ideas = db.ideas
          ∧ (leaveCollaborationB db me ideaId).ideas = db.ideas)
    ∧ (∀ (db : DBA) (me ideaId : Nat),
        ∀ x ∈ (deleteIdeaA db me ideaId).ideas, x ∈ db.ideas)
    ∧ ∀ (db : DBB) (me ideaId : Nat),
        ∀ x ∈ (deleteIdeaB db me ideaId).ideas, x ∈ db.ideas := by
  refine ⟨?_, ?_, ?_, ?_, ?_, ?_, ?_, ?_, ?_, ?_⟩
  · intro i
    exact ⟨i.userid, rfl, fun y hy => hy.symm⟩
  · intro i
    exact ⟨i.userid, rfl, fun y hy => hy.symm⟩
  · intro db me ideaId f
    cases hfind : db.ideas.find? (fun i => i.ideaid == ideaId) with
    | none =>
      have h : editIdeaA db me ideaId f = db := by
        rw [editIdeaA]
        simp [hfind]
      rw [h]
    | some idea =>
      by_cases hp : (idea.userid == me
          || db.collabs.any
              (fun c => c.ideaid == ideaId && c.userid == me)) = true
      · have h : (editIdeaA db me ideaId f).ideas
            = db.ideas.map
                (fun i =>
                  if (i.ideaid == ideaId) = true then updatedRowA f i
                  else i) := by
          rw [editIdeaA]
          simp [hfind, hp]
        rw [h, List.map_map]
        apply List.map_congr_left
        intro i _
        by_cases hi : (i.ideaid == ideaId) = true <;>
          simp [Function.comp, hi, updatedRowA]
      · have h : editIdeaA db me ideaId f = db := by
          rw [editIdeaA]
          simp [hfind, hp]
        rw [h]
  · intro db me ideaId f
    by_cases hval : (!truthy f.ideaname || !truthy f.ideadescription) = true
    · have h : editIdeaB db me ideaId f = db := by
        rw [editIdeaB]
        simp [hval]
      rw [h]
    cases hfind : db.ideas.find? (fun i => i.ideaid == ideaId) with
    | none =>
      have h : editIdeaB db me ideaId f = db := by
        rw [editIdeaB]
        simp [hval, hfind]
      rw [h]
    | some idea =>
      by_cases hp : (idea.userid == me
          || db.collabs.any
              (fun c => c.ideaid == ideaId && c.userid == me)) = true
      · have h : (editIdeaB db me ideaId f).ideas
            = db.ideas.map
                (fun i =>
                  if (i.ideaid == ideaId) = true then updatedRowB f i
                  else i) := by
          rw [editIdeaB]
          simp [hval, hfind, hp]
        rw [h, List.map_map]
        apply List.map_congr_left
        intro i _
        by_cases hi : (i.ideaid == ideaId) = true <;>
          simp [Function.comp, hi, updatedRowB]
      · have h : editIdeaB db me ideaId f = db := by
          rw [editIdeaB]
          simp [hval, hfind, hp]
        rw [h]
  · intro db me ideaId f idea hwf hmem hid hperm
    subst hid
    have hfind := find?_key_eq (fun i => i.ideaid) db.ideas hwf.1 idea hmem
    have hpb : (idea.userid == me
        || db.collabs.any
            (fun c => c.ideaid == idea.ideaid && c.userid == me))
        = true := by
      rw [Bool.or_eq_true]
      rcases hperm with h | ⟨c, hc, h1, h2⟩
      · left
        rwa [beq_iff_eq]
      · right
        rw [List.any_eq_true]
        exact ⟨c, hc, by simp [h1, h2]⟩
    refine ⟨?_, rfl, rfl, rfl, rfl, rfl, rfl, rfl, rfl⟩
    have h : (editIdeaA db me idea.ideaid f).ideas
        = db.ideas.map
            (fun i =>
              if (i.ideaid == idea.ideaid) = true then updatedRowA f i
              else i) := by
      rw [editIdeaA]
      simp [hfind, hpb]
    rw [h]
    exact List.mem_map.mpr ⟨idea, hmem, by simp⟩
  · intro db me ideaId f idea hwf hmem hid hname hdesc hperm
    subst hid
    have hfind := find?_key_eq (fun i => i.ideaid) db.ideas hwf.1 idea hmem
    have hpb : (idea.userid == me
        || db.collabs.any
            (fun c => c.ideaid == idea.ideaid && c.userid == me))
        = true := by
      rw [Bool.or_eq_true]
      rcases hperm with h | ⟨c, hc, h1, h2⟩
      · left
        rwa [beq_iff_eq]
      · right
        rw [List.any_eq_true]
        exact ⟨c, hc, by simp [h1, h2]⟩
    refine ⟨?_, rfl, rfl, rfl, rfl, rfl, rfl, rfl, rfl⟩
    have h : (editIdeaB db me idea.ideaid f).ideas
        = db.ideas.map
            (fun i =>
              if (i.ideaid == idea.ideaid) = true then updatedRowB f i
              else i) := by
      rw [editIdeaB]
      simp [hname, hdesc, hfind, hpb]
    rw [h]
    exact List.mem_map.mpr ⟨idea, hmem, by simp⟩
  · intro db me ideaId target
    constructor
    · cases hfind : db.ideas.find? (fun i => i.ideaid == ideaId) with
      | none =>
        rw [addCollaboratorA]
        simp [hfind]
      | some idea =>
        by_cases h : (idea.userid == me) = true <;>
          (rw [addCollaboratorA]; simp [hfind, h])
    · cases hfind : db.ideas.find? (fun i => i.ideaid == ideaId) with
      | none =>
        rw [removeCollaboratorA]
        simp [hfind]
      | some idea =>
        by_cases h : (idea.userid == me) = true <;>
          (rw [removeCollaboratorA]; simp [hfind, h])
  · intro db me ideaId target
    refine ⟨?_, ?_, rfl⟩
    · cases hfind : db.ideas.find? (fun i => i.ideaid == ideaId) with
      | none =>
        rw [addCollaboratorB]
        simp [hfind]
      | some idea =>
        by_cases h : (idea.userid == me) = true <;>
          (rw [addCollaboratorB]; simp [hfind, h])
    · cases hf1 : db.collabs.find? (fun c => c.collaborationid == ideaId)
        with
      | none =>
        rw [removeCollaboratorB]
        simp [hf1]
      | some c =>
        cases hf2 : db.ideas.find? (fun i => i.ideaid == c.ideaid) with
        | none =>
          rw [removeCollaboratorB]
          simp [hf1, hf2]
        | some idea =>
          by_cases h : (idea.userid == me) = true <;>
            (rw [removeCollaboratorB]; simp [hf1, hf2, h])
  · intro db me ideaId x hx
    cases hfind : db.ideas.find? (fun i => i.ideaid == ideaId) with
    | none =>
      have h : deleteIdeaA db me ideaId = db := by
        rw [deleteIdeaA]
        simp [hfind]
      rwa [h] at hx
    | some idea =>
      by_cases how : (idea.userid == me) = true
      · have h : (deleteIdeaA db me ideaId).ideas
            = db.ideas.filter (fun i => !(i.ideaid == ideaId)) := by
          rw [deleteIdeaA]
          simp [hfind, how]
        rw [h] at hx
        exact (List.mem_filter.mp hx).1
      · have h : deleteIdeaA db me ideaId = db := by
          rw [deleteIdeaA]
          simp [hfind, how]
        rwa [h] at hx
  · intro db me ideaId x hx
    cases hfind : db.ideas.find? (fun i => i.ideaid == ideaId) with
    | none =>
      have h : deleteIdeaB db me ideaId = db := by
        rw [deleteIdeaB]
        simp [hfind]
      rwa [h] at hx
    | some idea =>
      by_cases how : (idea.userid == me) = true
      · have h : (deleteIdeaB db me ideaId).ideas
            = db.ideas.filter (fun i => !(i.ideaid == ideaId)) := by
          rw [deleteIdeaB]
          simp [hfind, how]
        rw [h] at hx
        exact (List.mem_filter.mp hx).1
      · have h : deleteIdeaB db me ideaId = db := by
          rw [deleteIdeaB]
          simp [hfind, how]
        rwa [h] at hx

/-- Variant A idea for the C6 witness. -/
def ideaC6A : IdeaA :=
  ⟨1, 1, "old", "odesc", none, none, none, none, none, none⟩

/-- Variant A database for the C6 witness. -/
def dbC6A : DBA :=
  ⟨[ideaC6A], []⟩

/-- Variant A edit form for the C6 witness. -/
def fC6A : FormA :=
  ⟨some "new", some "ndesc", MsInput.absent, none, none, none, none⟩

/-- Variant B idea for the C6 witness. -/
def ideaC6B : IdeaB :=
  ⟨1, 1, "old", "odesc", none, none, none, none, none, none⟩

/-- Variant B database for the C6 witness. -/
def dbC6B : DBB :=
  ⟨[ideaC6B], []⟩

/-- Variant B edit form for the C6 witness. -/
def fC6B : FormB :=
  ⟨some "new", some "ndesc", none, none, none, none, none⟩

/-- Second variant A idea (different owner), surviving the delete. -/
def ideaC6A2 : IdeaA :=
  ⟨2, 2, "b", "bd", none, none, none, none, none, none⟩

/-- Second variant B idea (different owner), surviving the delete. -/
def ideaC6B2 : IdeaB :=
  ⟨2, 2, "b", "bd", none, none, none, none, none, none⟩

/-- C6 witness: the owner edits idea 1 in a one-idea database — the
updated row is stored and keeps its owner; and a surviving row of a delete
was a row of the original database. -/
theorem c6_owner_unique_immutable_witness :
    (updatedRowA fC6A ideaC6A ∈ (editIdeaA dbC6A 1 1 fC6A).ideas
      ∧ (updatedRowA fC6A ideaC6A).userid = ideaC6A.userid)
    ∧ (updatedRowB fC6B ideaC6B ∈ (editIdeaB dbC6B 1 1 fC6B).ideas
      ∧ (updatedRowB fC6B ideaC6B).userid = ideaC6B.userid)
    ∧ ideaC6A2 ∈ (⟨[ideaC6A, ideaC6A2], []⟩ : DBA).ideas
    ∧ ideaC6B2 ∈ (⟨[ideaC6B, ideaC6B2], []⟩ : DBB).ideas := by
  have hA := c6_owner_unique_immutable.2.2.2.2.1 dbC6A 1 1 fC6A ideaC6A
    (by decide) (by decide) rfl (Or.inl rfl)
  have hB := c6_owner_unique_immutable.2.2.2.2.2.1 dbC6B 1 1 fC6B ideaC6B
    (by decide) (by decide) rfl (by decide) (by decide) (Or.inl rfl)
  refine ⟨⟨hA.1, hA.2.1⟩, ⟨hB.1, hB.2.1⟩, ?_, ?_⟩
  · exact c6_owner_unique_immutable.2.2.2.2.2.2.2.2.1
      ⟨[ideaC6A, ideaC6A2], []⟩ 1 1 ideaC6A2 (by decide)
  · exact c6_owner_unique_immutable.2.2.2.2.2.2.2.2.2
      ⟨[ideaC6B, ideaC6B2], []⟩ 1 1 ideaC6B2 (by decide)
